import Mathlib

/-!
Verification of the OpsGenie MCP server (TypeScript) against its design
specification.  The development shallowly embeds the two source files:

* `src/opsgenie-client.ts` — the HTTP adapter (`OpsGenieClient`) and the
  alert operation set (URL/query/body construction, header merging,
  error normalisation);
* the server file — tool/resource handlers built on the client
  (`get-alert-details`, `close-alert`, the `alert-details` resource,
  `formatAlertDetails`).

JavaScript-specific behaviour (string truthiness, object spread with
last-write-wins keys, `encodeURIComponent`, `URLSearchParams`
serialisation, `JSON.stringify`) is modelled explicitly.
-/

namespace Opsgenie

/-! ## Generic string containment -/

/-- Boolean test that `pre` is a prefix of `l`. -/
def listStartsWith : List Char → List Char → Bool
  | _, [] => true
  | [], _ :: _ => false
  | c :: cs, d :: ds => c = d && listStartsWith cs ds

/-- Boolean test that `needle` occurs contiguously inside `hay`. -/
def listContainsSub (hay needle : List Char) : Bool :=
  match hay with
  | [] => listStartsWith [] needle
  | c :: t => listStartsWith (c :: t) needle || listContainsSub t needle

/-- String-level containment: `strContains hay needle` holds when `needle`
occurs verbatim inside `hay`. -/
def strContains (hay needle : String) : Bool :=
  listContainsSub hay.data needle.data

/-! ## JavaScript helpers -/

/-- The characters matched by the JavaScript regular-expression class
`\s` (ECMA-262 WhiteSpace plus LineTerminator): tab, LF, VT, FF, CR,
space, NBSP, and ZWNBSP/BOM, together with the Unicode
space-separator category U+1680, U+2000..U+200A, U+202F, U+205F,
U+3000 and the line separators U+2028, U+2029. -/
def jsWhitespaceChars : List Char :=
  [' ', '\t', '\n', '\r', Char.ofNat 11, Char.ofNat 12, Char.ofNat 160,
   Char.ofNat 5760, Char.ofNat 8192, Char.ofNat 8193, Char.ofNat 8194, Char.ofNat 8195,
   Char.ofNat 8196, Char.ofNat 8197, Char.ofNat 8198, Char.ofNat 8199, Char.ofNat 8200,
   Char.ofNat 8201, Char.ofNat 8202, Char.ofNat 8232, Char.ofNat 8233, Char.ofNat 8239,
   Char.ofNat 8287, Char.ofNat 12288, Char.ofNat 65279]

/-- Membership test for the JavaScript `\s` class, as used by the key
regex `/^GenieKey\s+/` in `opsgenie-client.ts:28`. -/
def isJsSpace (c : Char) : Bool :=
  jsWhitespaceChars.contains c

/-- JavaScript truthiness of an optional string (`undefined` and `""`
are falsy). -/
def optStrTruthy : Option String → Bool
  | some s => s ≠ ""
  | none => false

/-! ## Percent encoding (`encodeURIComponent`) -/

/-- The sixteen uppercase hexadecimal digit characters. -/
def hexDigits : List Char := "0123456789ABCDEF".data

/-- Hexadecimal digit for a value below 16 (uppercase, as
`encodeURIComponent` emits). -/
def hexDigit (n : Nat) : Char := hexDigits.getD n '0'

/-- UTF-8 byte sequence of a character, as JavaScript percent-encodes
non-ASCII characters byte by byte. -/
def utf8Bytes (c : Char) : List Nat :=
  let n := c.toNat
  if n < 128 then [n]
  else if n < 2048 then [192 + n / 64, 128 + n % 64]
  else if n < 65536 then [224 + n / 4096, 128 + (n / 64) % 64, 128 + n % 64]
  else [240 + n / 262144, 128 + (n / 4096) % 64, 128 + (n / 64) % 64, 128 + n % 64]

/-- Characters `encodeURIComponent` leaves unescaped:
`A-Z a-z 0-9 - _ . ! ~ * ' ( )`. -/
def isUriUnreserved (c : Char) : Bool :=
  c.isAlphanum || c = '-' || c = '_' || c = '.' || c = '!' || c = '~' ||
    c = '*' || c = Char.ofNat 39 || c = '(' || c = ')'

/-- Percent-encoding of one character: kept verbatim when unreserved,
otherwise each UTF-8 byte becomes `%XY`. -/
def encodeChar (c : Char) : List Char :=
  if isUriUnreserved c then [c]
  else (utf8Bytes c).foldr (fun b acc => '%' :: hexDigit (b / 16) :: hexDigit (b % 16) :: acc) []

/-- Model of `encodeURIComponent` over a character list. -/
def encodeURIComponentList : List Char → List Char
  | [] => []
  | c :: cs => encodeChar c ++ encodeURIComponentList cs

/-- Model of JavaScript `encodeURIComponent`. -/
def encodeURIComponent (s : String) : String :=
  String.mk (encodeURIComponentList s.data)

/-! ## `URLSearchParams` serialisation -/

/-- Characters left unescaped by `application/x-www-form-urlencoded`
serialisation (what `URLSearchParams.toString` uses): alphanumerics and
`* - . _`; space becomes `+`. -/
def isFormUnreserved (c : Char) : Bool :=
  c.isAlphanum || c = '*' || c = '-' || c = '.' || c = '_'

/-- Form-encoding of a single character. -/
def formEncodeChar (c : Char) : List Char :=
  if isFormUnreserved c then [c]
  else if c = ' ' then ['+']
  else (utf8Bytes c).foldr (fun b acc => '%' :: hexDigit (b / 16) :: hexDigit (b % 16) :: acc) []

/-- Form-encoding of a character list. -/
def formEncodeList : List Char → List Char
  | [] => []
  | c :: cs => formEncodeChar c ++ formEncodeList cs

/-- Form-encoding of a string. -/
def formEncode (s : String) : String := String.mk (formEncodeList s.data)

/-- One `key=value` fragment of a serialised `URLSearchParams`. -/
def pairToString (p : String × String) : String :=
  formEncode p.1 ++ "=" ++ formEncode p.2

/-- Model of `URLSearchParams.toString`: the appended pairs joined with `&`. -/
def searchToString : List (String × String) → String
  | [] => ""
  | [p] => pairToString p
  | p :: ps => pairToString p ++ "&" ++ searchToString ps

/-! ## JSON values and `JSON.stringify` -/

/-- JSON values, as produced by the request-body builders. -/
inductive Json where
  | str : String → Json
  | num : Int → Json
  | jsonBool : Bool → Json
  | null : Json
  | arr : List Json → Json
  | obj : List (String × Json) → Json

/-- The sixteen lowercase hexadecimal digit characters, as
`JSON.stringify` emits in `\u00xy` escapes. -/
def hexDigitsLower : List Char := "0123456789abcdef".data

/-- Lowercase hexadecimal digit for a value below 16. -/
def hexDigitLower (n : Nat) : Char := hexDigitsLower.getD n '0'

/-- Escaping of one character inside a JSON string literal, as
`JSON.stringify` performs it. -/
def escapeJsonChar (c : Char) : String :=
  if c = '"' then "\\\""
  else if c = '\\' then "\\\\"
  else if c = '\n' then "\\n"
  else if c = '\r' then "\\r"
  else if c = '\t' then "\\t"
  else if c = Char.ofNat 8 then "\\b"
  else if c = Char.ofNat 12 then "\\f"
  else if c.toNat < 32 then
    "\\u00" ++ String.mk [hexDigitLower (c.toNat / 16), hexDigitLower (c.toNat % 16)]
  else String.mk [c]

/-- A JSON string literal with quotes and escapes. -/
def quoteJson (s : String) : String :=
  "\"" ++ String.join (s.data.map escapeJsonChar) ++ "\""

mutual

/-- Compact `JSON.stringify` (no spacing), as used for request bodies. -/
def Json.stringify : Json → String
  | .str s => quoteJson s
  | .num n => toString n
  | .jsonBool b => cond b "true" "false"
  | .null => "null"
  | .arr xs => "[" ++ stringifyArr xs ++ "]"
  | .obj kvs => "\x7b" ++ stringifyObj kvs ++ "\x7d"

/-- Comma-joined serialisation of array elements. -/
def stringifyArr : List Json → String
  | [] => ""
  | [x] => Json.stringify x
  | x :: y :: xs => Json.stringify x ++ "," ++ stringifyArr (y :: xs)

/-- Comma-joined serialisation of object members. -/
def stringifyObj : List (String × Json) → String
  | [] => ""
  | [kv] => quoteJson kv.1 ++ ":" ++ Json.stringify kv.2
  | kv :: kv' :: kvs => quoteJson kv.1 ++ ":" ++ Json.stringify kv.2 ++ "," ++ stringifyObj (kv' :: kvs)

end

/-- Whitespace used for one pretty-printing indent level. -/
def jsonIndent (n : Nat) : String := String.mk (List.replicate n ' ')

mutual

/-- Model of `JSON.stringify(x, null, 2)`: pretty serialisation with two-space
indentation, as the resource handlers use. `d` is the current depth. -/
def Json.stringifyPretty (d : Nat) : Json → String
  | .str s => quoteJson s
  | .num n => toString n
  | .jsonBool b => cond b "true" "false"
  | .null => "null"
  | .arr [] => "[]"
  | .arr (x :: xs) =>
      "[\n" ++ stringifyPrettyArr (d + 1) (x :: xs) ++ "\n" ++ jsonIndent (2 * d) ++ "]"
  | .obj [] => "\x7b\x7d"
  | .obj (kv :: kvs) =>
      "\x7b\n" ++ stringifyPrettyObj (d + 1) (kv :: kvs) ++ "\n" ++ jsonIndent (2 * d) ++ "\x7d"

/-- Pretty serialisation of array elements, one per line. -/
def stringifyPrettyArr (d : Nat) : List Json → String
  | [] => ""
  | [x] => jsonIndent (2 * d) ++ Json.stringifyPretty d x
  | x :: y :: xs =>
      jsonIndent (2 * d) ++ Json.stringifyPretty d x ++ ",\n" ++ stringifyPrettyArr d (y :: xs)

/-- Pretty serialisation of object members, one per line. -/
def stringifyPrettyObj (d : Nat) : List (String × Json) → String
  | [] => ""
  | [kv] => jsonIndent (2 * d) ++ quoteJson kv.1 ++ ": " ++ Json.stringifyPretty d kv.2
  | kv :: kv' :: kvs =>
      jsonIndent (2 * d) ++ quoteJson kv.1 ++ ": " ++ Json.stringifyPretty d kv.2 ++ ",\n" ++
        stringifyPrettyObj d (kv' :: kvs)

end

/-! ## JavaScript string-keyed objects (header maps)

A JavaScript object literal has unique keys; spreading another object
into it overwrites existing keys in place and appends new ones
(last write wins).  Header maps are modelled as association lists with
that merge semantics. -/

/-- Number of entries with key `k`. -/
def countKey : List (String × String) → String → Nat
  | [], _ => 0
  | p :: ps, k => (if p.1 = k then 1 else 0) + countKey ps k

/-- Whether some entry has key `k`. -/
def hasKey : List (String × String) → String → Bool
  | [], _ => false
  | p :: ps, k => p.1 = k || hasKey ps k

/-- Value of the (unique) entry with key `k`, first match. -/
def jsGet : List (String × String) → String → Option String
  | [], _ => none
  | p :: ps, k => if p.1 = k then some p.2 else jsGet ps k

/-- JavaScript property assignment: overwrite in place, else append. -/
def objInsert (o : List (String × String)) (k v : String) : List (String × String) :=
  if hasKey o k then o.map (fun p => if p.1 = k then (k, v) else p) else o ++ [(k, v)]

/-- JavaScript object spread `\x7b...o, ...kvs\x7d`: fold the overriding
entries into `o` left to right. -/
def objExtend (o : List (String × String)) (kvs : List (String × String)) : List (String × String) :=
  kvs.foldl (fun acc p => objInsert acc p.1 p.2) o

/-! ## `OpsGenieClient` construction (`opsgenie-client.ts` 23-56) -/

/-- Model of `config.apiKey.replace(/^GenieKey\s+/, '')` over a character list:
when the list starts with the literal `GenieKey` followed by at least
one whitespace character, that prefix and all following whitespace are
removed (the regex `\s+` is greedy); otherwise the list is unchanged. -/
def stripGenieKeyList (cs : List Char) : List Char :=
  if cs.take 8 = "GenieKey".data then
    match cs.drop 8 with
    | [] => cs
    | c :: rest => if isJsSpace c then rest.dropWhile isJsSpace else cs
  else cs

/-- Key canonicalisation done in the constructor (line 28). -/
def stripGenieKey (k : String) : String := String.mk (stripGenieKeyList k.data)

/-- The authorization value the adapter derives from a raw key:
strip any existing scheme prefix, reapply `GenieKey `. -/
def canonicalAuth (k : String) : String := "GenieKey " ++ stripGenieKey k

/-- Model of `OpsGenieClientConfig` (types file): required key, optional base URL. -/
structure OpsGenieClientConfig where
  apiKey : String
  baseUrl : Option String := none
deriving DecidableEq

/-- The constructed client state: canonical key and resolved base URL. -/
structure OpsGenieClient where
  apiKey : String
  baseUrl : String
deriving DecidableEq

/-- The constructor (lines 27-30): strips the scheme prefix from the key
and falls back to the production host when `baseUrl` is absent or falsy. -/
def mkOpsGenieClient (config : OpsGenieClientConfig) : OpsGenieClient :=
  { apiKey := stripGenieKey config.apiKey,
    baseUrl :=
      match config.baseUrl with
      | some b => if b ≠ "" then b else "https://api.opsgenie.com"
      | none => "https://api.opsgenie.com" }

/-- A `node-fetch` request body: a string, or some non-string `BodyInit`
object (`Buffer`, stream, `URLSearchParams`, ... — all of which are
truthy JavaScript values). -/
inductive JsBody where
  | str : String → JsBody
  | nonString : String → JsBody
deriving DecidableEq

/-- The `RequestInit` options a call site passes to `request`. -/
structure RequestInit where
  method : Option String := none
  headers : List (String × String) := []
  body : Option JsBody := none
deriving DecidableEq

/-- One client operation: the endpoint string interpolated by the
operation method plus the options it passes to `request`. -/
structure RequestOp where
  endpoint : String
  options : RequestInit
deriving DecidableEq

/-- The request `fetch` receives after `request` composes URL, headers
and body (lines 35-50). -/
structure FetchCall where
  url : String
  method : String
  headers : List (String × String)
  body : Option JsBody
deriving DecidableEq

/-- Lines 46-49: `if (options.body && typeof options.body !== 'string')
delete fetchOptions.body` — a truthy non-string body is stripped; every
string body (and an absent body) passes through. -/
def stripNonStringBody : Option JsBody → Option JsBody
  | some (JsBody.nonString _) => none
  | b => b

/-- Lines 35-50 of `request`: the URL is base + endpoint, the default
headers are extended by the caller's (object spread, last write wins),
a truthy non-string body is dropped, and `fetch` defaults the method to
GET when none is set. -/
def buildFetch (c : OpsGenieClient) (op : RequestOp) : FetchCall :=
  { url := c.baseUrl ++ op.endpoint,
    method := op.options.method.getD "GET",
    headers := objExtend
      [("Authorization", "GenieKey " ++ c.apiKey), ("Content-Type", "application/json")]
      op.options.headers,
    body := stripNonStringBody op.options.body }

/-- The fetch calls a single client operation issues: exactly the one
request `request` awaits (line 50). -/
def issuedCalls (c : OpsGenieClient) (op : RequestOp) : List FetchCall :=
  [buildFetch c op]

/-- The relevant observable parts of a `node-fetch` response. -/
structure Response where
  status : Nat
  statusText : String
  bodyText : String
deriving DecidableEq

/-- Model of `response.ok`: status in the inclusive success range 200-299. -/
def respOk (r : Response) : Bool := 200 ≤ r.status && r.status ≤ 299

/-- The message of the error thrown on a non-success response
(line 53). -/
def opsgenieErrorMsg (r : Response) : String :=
  "OpsGenie API error: " ++ toString r.status ++ " " ++ r.statusText ++ " - " ++ r.bodyText

/-- Lines 50-55: a non-ok response reads the full body text and throws
one error built from status, status text and body; an ok response is
parsed as JSON (the parsed payload is represented by its source text,
since the adapter does no validation of successful bodies). -/
def handleResponse (r : Response) : Except String String :=
  if respOk r then Except.ok r.bodyText else Except.error (opsgenieErrorMsg r)

/-! ## Alert operations (`opsgenie-client.ts` 62-243) -/

/-- Model of `AlertSearchParams` (types file). -/
structure AlertSearchParams where
  query : Option String := none
  searchIdentifier : Option String := none
  searchIdentifierType : Option String := none
  offset : Option Int := none
  limit : Option Int := none
  sort : Option String := none
  order : Option String := none
deriving DecidableEq

/-- One `if (params.x) search.append('x', params.x)` line: the pair is
appended only when the stringly-typed field is defined and truthy. -/
def strField (key : String) (v : Option String) : List (String × String) :=
  match v with
  | some s => if s ≠ "" then [(key, s)] else []
  | none => []

/-- One `if (params.x !== undefined) search.append('x', String(params.x))`
line for a numeric field. -/
def numField (key : String) (v : Option Int) : List (String × String) :=
  match v with
  | some n => [(key, toString n)]
  | none => []

/-- The `URLSearchParams` content `searchAlerts` builds (lines 73-80):
string fields are appended when truthy, numeric fields when not
`undefined`. -/
def searchAlertsQuery (params : AlertSearchParams) : List (String × String) :=
  strField "query" params.query ++
  strField "searchIdentifier" params.searchIdentifier ++
  strField "searchIdentifierType" params.searchIdentifierType ++
  numField "offset" params.offset ++
  numField "limit" params.limit ++
  strField "sort" params.sort ++
  strField "order" params.order

/-- Model of `searchAlerts` (lines 72-82). -/
def searchAlerts (params : AlertSearchParams) : RequestOp :=
  ⟨"/v2/alerts?" ++ searchToString (searchAlertsQuery params), {}⟩

/-- Model of `AlertCountParams` (types file). -/
structure AlertCountParams where
  query : Option String := none
  searchIdentifier : Option String := none
  searchIdentifierType : Option String := none
deriving DecidableEq

/-- The `URLSearchParams` content `countAlerts` builds (lines 88-91). -/
def countAlertsQuery (params : AlertCountParams) : List (String × String) :=
  strField "query" params.query ++
  strField "searchIdentifier" params.searchIdentifier ++
  strField "searchIdentifierType" params.searchIdentifierType

/-- Model of `countAlerts` (lines 87-93). -/
def countAlerts (params : AlertCountParams) : RequestOp :=
  ⟨"/v2/alerts/count?" ++ searchToString (countAlertsQuery params), {}⟩

/-- Model of `getAlert` (lines 65-67). -/
def getAlert (identifier : String) : RequestOp :=
  ⟨"/v2/alerts/" ++ encodeURIComponent identifier ++ "?identifierType=id", {}⟩

/-- A TypeScript `string | number`, as in `AlertNotesParams.offset`. -/
inductive StrOrNum where
  | s : String → StrOrNum
  | n : Int → StrOrNum
deriving DecidableEq

/-- Model of `String(x)` over a `string | number`. -/
def StrOrNum.jsString : StrOrNum → String
  | .s v => v
  | .n v => toString v

/-- Model of `AlertNotesParams` (types file). -/
structure AlertNotesParams where
  offset : Option StrOrNum := none
  direction : Option String := none
  limit : Option Int := none
  order : Option String := none
deriving DecidableEq

/-- The `URLSearchParams` content `getAlertNotes` builds (lines 99-105),
ending with the unconditional `identifierType=id`. -/
def getAlertNotesQuery (params : AlertNotesParams) : List (String × String) :=
  (match params.offset with
    | some v => [("offset", v.jsString)]
    | none => []) ++
  strField "direction" params.direction ++
  numField "limit" params.limit ++
  strField "order" params.order ++
  [("identifierType", "id")]

/-- Model of `getAlertNotes` (lines 98-107). -/
def getAlertNotes (identifier : String) (params : AlertNotesParams) : RequestOp :=
  ⟨"/v2/alerts/" ++ encodeURIComponent identifier ++ "/notes?" ++
    searchToString (getAlertNotesQuery params), {}⟩

/-- The `\x7bnote?\x7d` body shared by close/acknowledge/unacknowledge
(lines 131-134 etc.): the `note` member is set only when the argument
is truthy. -/
def noteBodyJson (note : Option String) : Json :=
  Json.obj
    (match note with
      | some s => if s ≠ "" then [("note", Json.str s)] else []
      | none => [])

/-- Model of `closeAlert` (lines 130-139). -/
def closeAlert (identifier : String) (note : Option String) : RequestOp :=
  ⟨"/v2/alerts/" ++ encodeURIComponent identifier ++ "/close?identifierType=id",
   { method := some "POST", body := some (JsBody.str (Json.stringify (noteBodyJson note))) }⟩

/-- Model of `acknowledgeAlert` (lines 144-153). -/
def acknowledgeAlert (identifier : String) (note : Option String) : RequestOp :=
  ⟨"/v2/alerts/" ++ encodeURIComponent identifier ++ "/acknowledge?identifierType=id",
   { method := some "POST", body := some (JsBody.str (Json.stringify (noteBodyJson note))) }⟩

/-- Model of `unacknowledgeAlert` (lines 168-177). -/
def unacknowledgeAlert (identifier : String) (note : Option String) : RequestOp :=
  ⟨"/v2/alerts/" ++ encodeURIComponent identifier ++ "/unacknowledge?identifierType=id",
   { method := some "POST", body := some (JsBody.str (Json.stringify (noteBodyJson note))) }⟩

/-- Model of `snoozeAlert` (lines 158-163): the caller-built snooze payload is
stringified as is. -/
def snoozeAlert (identifier : String) (snoozeData : Json) : RequestOp :=
  ⟨"/v2/alerts/" ++ encodeURIComponent identifier ++ "/snooze?identifierType=id",
   { method := some "POST", body := some (JsBody.str (Json.stringify snoozeData)) }⟩

/-- Model of `assignAlert` (lines 182-187). -/
def assignAlert (identifier : String) (assignData : Json) : RequestOp :=
  ⟨"/v2/alerts/" ++ encodeURIComponent identifier ++ "/assign?identifierType=id",
   { method := some "POST", body := some (JsBody.str (Json.stringify assignData)) }⟩

/-- Model of `escalateAlert` (lines 192-197). -/
def escalateAlert (identifier : String) (escalationData : Json) : RequestOp :=
  ⟨"/v2/alerts/" ++ encodeURIComponent identifier ++ "/escalate?identifierType=id",
   { method := some "POST", body := some (JsBody.str (Json.stringify escalationData)) }⟩

/-- Model of `addNoteToAlert` (lines 206-211): `AddNoteRequest` is `\x7bnote\x7d`. -/
def addNoteToAlert (identifier : String) (note : String) : RequestOp :=
  ⟨"/v2/alerts/" ++ encodeURIComponent identifier ++ "/notes?identifierType=id",
   { method := some "POST",
     body := some (JsBody.str (Json.stringify (Json.obj [("note", Json.str note)]))) }⟩

/-- The `\x7btags, note?\x7d` body shared by the tag operations
(lines 221-224, 235-238). -/
def tagsBodyJson (tags : List String) (note : Option String) : Json :=
  Json.obj
    (("tags", Json.arr (tags.map Json.str)) ::
      (match note with
        | some s => if s ≠ "" then [("note", Json.str s)] else []
        | none => []))

/-- Model of `addTagsToAlert` (lines 220-229). -/
def addTagsToAlert (identifier : String) (tags : List String) (note : Option String) : RequestOp :=
  ⟨"/v2/alerts/" ++ encodeURIComponent identifier ++ "/tags?identifierType=id",
   { method := some "POST", body := some (JsBody.str (Json.stringify (tagsBodyJson tags note))) }⟩

/-- Model of `removeTagsFromAlert` (lines 234-243). -/
def removeTagsFromAlert (identifier : String) (tags : List String) (note : Option String) :
    RequestOp :=
  ⟨"/v2/alerts/" ++ encodeURIComponent identifier ++ "/tags?identifierType=id",
   { method := some "DELETE",
     body := some (JsBody.str (Json.stringify (tagsBodyJson tags note))) }⟩

/-! ## URL decomposition at the first `?` -/

/-- Path part of a URL: everything before the first `?`. -/
def urlPath (u : String) : String := String.mk (u.data.takeWhile (· ≠ '?'))

/-- Query part of a URL: everything after the first `?` (empty when
there is none). -/
def urlQuery (u : String) : String := String.mk ((u.data.dropWhile (· ≠ '?')).tail)

/-! ## Server data model (types file and server handlers) -/

/-- Model of `Responder` (types file). -/
structure Responder where
  type : String
  id : String
  name : Option String := none
deriving DecidableEq

/-- Model of `Alert` (types file, `BaseAlert` plus the `Alert` extension).
The `any`-typed `integration`/`report` members are arbitrary JSON. -/
structure Alert where
  id : String
  tinyId : Option String := none
  «alias» : Option String := none
  message : Option String := none
  status : Option String := none
  acknowledged : Option Bool := none
  isSeen : Option Bool := none
  tags : Option (List String) := none
  snoozed : Option Bool := none
  snoozedUntil : Option String := none
  count : Option Int := none
  lastOccurredAt : Option String := none
  createdAt : Option String := none
  updatedAt : Option String := none
  source : Option String := none
  owner : Option String := none
  priority : Option String := none
  responders : Option (List Responder) := none
  integration : Option Json := none
  report : Option Json := none
  actions : Option (List String) := none
  entity : Option String := none
  description : Option String := none
  details : Option (List (String × String)) := none

/-- Model of `GetAlertResponse` (types file). -/
structure GetAlertResponse where
  requestId : String
  data : Alert

/-- An optional member of a serialised JSON object: present only when
the value is defined (`JSON.stringify` omits `undefined` members). -/
def optField (k : String) (v : Option Json) : List (String × Json) :=
  match v with
  | some j => [(k, j)]
  | none => []

/-- JSON form of a `Responder`. -/
def Responder.toJson (r : Responder) : Json :=
  Json.obj ([("type", Json.str r.type), ("id", Json.str r.id)] ++
    optField "name" (r.name.map Json.str))

/-- JSON form of an `Alert`, members in interface declaration order,
`undefined` members omitted. -/
def Alert.toJson (a : Alert) : Json :=
  Json.obj
    ([("id", Json.str a.id)] ++
     optField "tinyId" (a.tinyId.map Json.str) ++
     optField "alias" (a.«alias».map Json.str) ++
     optField "message" (a.message.map Json.str) ++
     optField "status" (a.status.map Json.str) ++
     optField "acknowledged" (a.acknowledged.map Json.jsonBool) ++
     optField "isSeen" (a.isSeen.map Json.jsonBool) ++
     optField "tags" (a.tags.map (fun ts => Json.arr (ts.map Json.str))) ++
     optField "snoozed" (a.snoozed.map Json.jsonBool) ++
     optField "snoozedUntil" (a.snoozedUntil.map Json.str) ++
     optField "count" (a.count.map Json.num) ++
     optField "lastOccurredAt" (a.lastOccurredAt.map Json.str) ++
     optField "createdAt" (a.createdAt.map Json.str) ++
     optField "updatedAt" (a.updatedAt.map Json.str) ++
     optField "source" (a.source.map Json.str) ++
     optField "owner" (a.owner.map Json.str) ++
     optField "priority" (a.priority.map Json.str) ++
     optField "responders" (a.responders.map (fun rs => Json.arr (rs.map Responder.toJson))) ++
     optField "integration" a.integration ++
     optField "report" a.report ++
     optField "actions" (a.actions.map (fun xs => Json.arr (xs.map Json.str))) ++
     optField "entity" (a.entity.map Json.str) ++
     optField "description" (a.description.map Json.str) ++
     optField "details"
       (a.details.map (fun kvs => Json.obj (kvs.map (fun kv => (kv.1, Json.str kv.2))))))

/-- JavaScript `x || 'N/A'` over an optional string (an interpolated
`undefined` or empty string falls back). -/
def jsOrNA (o : Option String) : String :=
  match o with
  | some s => if s ≠ "" then s else "N/A"
  | none => "N/A"

/-- Model of `formatAlertDetails` (server file, utility section): the
human-readable text block of the `get-alert-details` tool. -/
def formatAlertDetails (alert : Alert) : String :=
  "Alert Details:\nID: " ++ alert.id ++
  "\nMessage: " ++ jsOrNA alert.message ++
  "\nDescription: " ++ jsOrNA alert.description ++
  "\nStatus: " ++ jsOrNA alert.status ++
  "\nPriority: " ++ jsOrNA alert.priority ++
  "\nCreated At: " ++ jsOrNA alert.createdAt ++
  "\nUpdated At: " ++ jsOrNA alert.updatedAt ++
  "\nOwner: " ++ jsOrNA alert.owner ++
  "\nTags: " ++ jsOrNA (alert.tags.map (String.intercalate ", ")) ++
  "\nResponders: " ++
    jsOrNA (alert.responders.map
      (fun rs => String.intercalate ", " (rs.map (fun r => r.type ++ ":" ++ r.id)))) ++
  "\nAcknowledged: " ++ (if alert.acknowledged = some true then "Yes" else "No") ++
  "\nIs Seen: " ++ (if alert.isSeen = some true then "Yes" else "No") ++
  "\nSnoozed: " ++ (if alert.snoozed = some true then "Yes" else "No")

/-! ## Tool and resource handlers (server file) -/

/-- A JavaScript value caught by a `catch` branch: either an `Error`
instance carrying its message, or any other thrown value (whose payload
the handlers never inspect). -/
inductive JsValue where
  | errorVal : String → JsValue
  | nonError : String → JsValue
deriving DecidableEq

/-- Model of `error instanceof Error ? error.message : 'Unknown error'`. -/
def caughtMessage : JsValue → String
  | .errorVal m => m
  | .nonError _ => "Unknown error"

/-- One content block of a tool response. -/
structure ContentBlock where
  type : String
  text : Option String := none
  uri : Option String := none
  name : Option String := none
  description : Option String := none
  mimeType : Option String := none
deriving DecidableEq

/-- A tool handler's return value. -/
structure ToolResponse where
  content : List ContentBlock
  isError : Bool := false
deriving DecidableEq

/-- The `get-alert-details` tool handler (server file, lines 495-534):
`remote` is the awaited outcome of `opsgenieClient.getAlert` — either a
response document or a thrown value. -/
def getAlertDetailsTool (remote : String → Except JsValue GetAlertResponse)
    (identifier : String) : ToolResponse :=
  match remote identifier with
  | Except.ok response =>
      let alert := response.data
      { content :=
          [ { type := "text", text := some (formatAlertDetails alert) },
            { type := "resource_link",
              uri := some ("opsgenie://alerts/" ++ alert.id),
              name := some ("Alert " ++ alert.id),
              description := some ("Detailed JSON data for alert " ++ alert.id),
              mimeType := some "application/json" } ],
        isError := false }
  | Except.error e =>
      { content :=
          [{ type := "text",
             text := some ("Error fetching alert details: " ++ caughtMessage e) }],
        isError := true }

/-- First-match member lookup in a JSON object member list. -/
def lookupJson : List (String × Json) → String → Option Json
  | [], _ => none
  | kv :: kvs, k => if kv.1 = k then some kv.2 else lookupJson kvs k

/-- JavaScript property access `x.k` on a parsed JSON value:
`undefined` (`none`) unless `x` is an object with that member. -/
def jsonGetField : Json → String → Option Json
  | Json.obj kvs, k => lookupJson kvs k
  | _, _ => none

/-- JavaScript truthiness of a parsed JSON value. -/
def jsonTruthy : Json → Bool
  | .str s => s ≠ ""
  | .num n => n ≠ 0
  | .jsonBool b => b
  | .null => false
  | .arr _ => true
  | .obj _ => true

mutual

/-- Template-literal interpolation `$\x7bx\x7d` of a JavaScript value. -/
def jsDisplay : Json → String
  | .str s => s
  | .num n => toString n
  | .jsonBool b => cond b "true" "false"
  | .null => "null"
  | .arr xs => jsDisplayArr xs
  | .obj _ => "[object Object]"

/-- Model of `Array.prototype.toString`: elements joined with commas. -/
def jsDisplayArr : List Json → String
  | [] => ""
  | [x] => jsDisplay x
  | x :: y :: xs => jsDisplay x ++ "," ++ jsDisplayArr (y :: xs)

end

/-- Model of `v || fallthrough`: keep `v` only when defined and truthy. -/
def pickTruthy : Option Json → Option Json
  | some v => if jsonTruthy v then some v else none
  | none => none

/-- Model of `response.result || response.data?.result || 'Alert closed'`
interpolated into the close-alert success text (lines 667-672). -/
def closeAlertSuccessText (identifier : String) (response : Json) : String :=
  let chosen :=
    match pickTruthy (jsonGetField response "result") with
    | some v => jsDisplay v
    | none =>
      match pickTruthy ((jsonGetField response "data").bind (fun d => jsonGetField d "result")) with
      | some v => jsDisplay v
      | none => "Alert closed"
  "Successfully closed alert " ++ identifier ++ ". Result: " ++ chosen

/-- The `close-alert` tool handler (server file, lines 655-684):
`remote` is the awaited outcome of `opsgenieClient.closeAlert`, a
parsed `any`-typed JSON document on success. -/
def closeAlertTool (remote : String → Option String → Except JsValue Json)
    (identifier : String) (note : Option String) : ToolResponse :=
  match remote identifier note with
  | Except.ok response =>
      { content :=
          [{ type := "text", text := some (closeAlertSuccessText identifier response) }],
        isError := false }
  | Except.error e =>
      { content :=
          [{ type := "text", text := some ("Error closing alert: " ++ caughtMessage e) }],
        isError := true }

/-- A templated-URI variable as the MCP SDK hands it to a resource
handler: a single string or an array of strings. -/
inductive UriParam where
  | one : String → UriParam
  | many : List String → UriParam

/-- Model of `Array.isArray(x) ? x[0] : x` — `none` models `undefined` (the
dereference of an empty array). -/
def firstParam : UriParam → Option String
  | .one s => some s
  | .many [] => none
  | .many (s :: _) => some s

/-- One entry of a resource read result. -/
structure ResourceContent where
  uri : String
  text : String
  mimeType : String

/-- A resource read result. -/
structure ResourceResult where
  contents : List ResourceContent

/-- The `alert-details` resource handler (server file, lines 165-193).
An `Except.error` result is a raised error (the handler re-throws a
wrapping `Error`), not a flagged response. -/
def alertDetailsResource (remote : String → Except JsValue GetAlertResponse)
    (uriHref : String) (alertId : UriParam) : Except String ResourceResult :=
  let attempt : Except JsValue ResourceResult :=
    match firstParam alertId with
    | none => Except.error (JsValue.errorVal "Alert ID is required")
    | some s =>
      if s = "" then Except.error (JsValue.errorVal "Alert ID is required")
      else
        match remote s with
        | Except.ok response =>
            Except.ok
              { contents :=
                  [{ uri := uriHref,
                     text := Json.stringifyPretty 0 response.data.toJson,
                     mimeType := "application/json" }] }
        | Except.error e => Except.error e
  match attempt with
  | Except.ok r => Except.ok r
  | Except.error e => Except.error ("Failed to fetch alert details: " ++ caughtMessage e)

/-- Literal-prefix stripping over character lists. -/
def stripLitPrefix : List Char → List Char → Option (List Char)
  | [], cs => some cs
  | _ :: _, [] => none
  | p :: ps, c :: cs => if p = c then stripLitPrefix ps cs else none

/-- Matching of the `alert-details` template
`opsgenie://alerts/\x7balertId\x7d` (server file, line 167) against a
request URI: the variable is the non-empty remainder after the literal
prefix, provided it spans a single path segment. -/
def matchAlertDetails (uri : String) : Option String :=
  match stripLitPrefix "opsgenie://alerts/".data uri.data with
  | some rest =>
      if !rest.isEmpty && !rest.contains '/' then some (String.mk rest) else none
  | none => none

/-- Suffix test on strings. -/
def strEndsWith (s t : String) : Bool :=
  listStartsWith s.data.reverse t.data.reverse

/-! ## Concrete fixtures used to instantiate the theorems -/

/-- A stub remote whose every call fails like a 404 with body
`not found` (the adapter's error for such a response). -/
def remote404 : String → Except JsValue GetAlertResponse :=
  fun _ => Except.error (JsValue.errorVal "OpsGenie API error: 404 Not Found - not found")

/-- A fixed alert document. -/
def alertA1 : Alert :=
  { id := "A1", message := some "Database down", status := some "open" }

/-- A fixed `getAlert` response carrying `alertA1`. -/
def respA1 : GetAlertResponse := { requestId := "req-1", data := alertA1 }

/-- A stub remote returning `respA1` for identifier `A1`. -/
def remoteStubA1 : String → Except JsValue GetAlertResponse :=
  fun i => if i = "A1" then Except.ok respA1 else Except.error (JsValue.errorVal "no such alert")

/-- A stub remote that throws a non-`Error` value. -/
def remoteThrowRaw : String → Except JsValue GetAlertResponse :=
  fun _ => Except.error (JsValue.nonError "raw payload")

/-- A stub close-alert remote that throws a non-`Error` value. -/
def remoteCloseThrowRaw : String → Option String → Except JsValue Json :=
  fun _ _ => Except.error (JsValue.nonError "other raw payload")

/-- The value a truthiness-guarded append leaves under the key. -/
def strFieldVal (v : Option String) : Option String :=
  match v with
  | some s => if s ≠ "" then some s else none
  | none => none

/-! ## Supporting lemmas -/

theorem listStartsWith_of_append (pre rest : List Char) :
    listStartsWith (pre ++ rest) pre = true := by
  induction pre with
  | nil => cases rest <;> rfl
  | cons c cs ih => simp [listStartsWith, ih]

theorem listContainsSub_of_startsWith (hay needle : List Char)
    (h : listStartsWith hay needle = true) : listContainsSub hay needle = true := by
  cases hay with
  | nil => simpa [listContainsSub] using h
  | cons c t => simp [listContainsSub, h]

theorem listContainsSub_cons (c : Char) (t needle : List Char)
    (h : listContainsSub t needle = true) : listContainsSub (c :: t) needle = true := by
  simp [listContainsSub, h]

theorem listContainsSub_append_left (pre hay needle : List Char)
    (h : listContainsSub hay needle = true) :
    listContainsSub (pre ++ hay) needle = true := by
  induction pre with
  | nil => simpa using h
  | cons c cs ih => exact listContainsSub_cons c _ needle ih

theorem listContainsSub_of_part (hay needle : List Char)
    (h : needle <:+: hay) : listContainsSub hay needle = true := by
  rcases h with ⟨s, t, rfl⟩
  rw [List.append_assoc]
  exact listContainsSub_append_left s _ needle
    (listContainsSub_of_startsWith _ _ (listStartsWith_of_append needle t))

theorem strContains_of_part (hay needle : String)
    (h : needle.data <:+: hay.data) : strContains hay needle = true :=
  listContainsSub_of_part hay.data needle.data h

theorem strContains_append_three (a b c : String) :
    strContains (a ++ b ++ c) b = true := by
  apply strContains_of_part
  rw [String.data_append, String.data_append]
  exact List.infix_append a.data b.data c.data

theorem strContains_append_right (a b : String) :
    strContains (a ++ b) b = true := by
  have := strContains_append_three a b ""
  simpa using this

theorem strContains_append_left (a b : String) :
    strContains (a ++ b) a = true := by
  have h : a.data <:+: (a ++ b).data := by
    rw [String.data_append]
    exact ⟨[], b.data, rfl⟩
  exact strContains_of_part _ _ h

theorem listStartsWith_to_front (needle : List Char) :
    ∀ hay, listStartsWith hay needle = true → needle <+: hay := by
  induction needle with
  | nil => intro hay _; exact List.nil_prefix
  | cons d ds ih =>
    intro hay h
    cases hay with
    | nil => simp [listStartsWith] at h
    | cons c cs =>
      simp only [listStartsWith, Bool.and_eq_true, decide_eq_true_eq] at h
      obtain ⟨rfl, h₂⟩ := h
      rcases ih cs h₂ with ⟨t, rfl⟩
      exact ⟨t, rfl⟩

theorem listContainsSub_to_part (needle : List Char) :
    ∀ hay, listContainsSub hay needle = true → needle <:+: hay := by
  intro hay
  induction hay with
  | nil =>
    intro h
    simp only [listContainsSub] at h
    rcases listStartsWith_to_front needle [] h with ⟨t, ht⟩
    exact ⟨[], t, by simpa using ht.symm⟩
  | cons c t ih =>
    intro h
    simp only [listContainsSub, Bool.or_eq_true] at h
    rcases h with h | h
    · rcases listStartsWith_to_front needle (c :: t) h with ⟨u, hu⟩
      exact ⟨[], u, by simpa using hu⟩
    · rcases ih h with ⟨s, u, hsu⟩
      exact ⟨c :: s, u, by simp [hsu]⟩

theorem strContains_trans (a b c : String)
    (h₁ : strContains a b = true) (h₂ : strContains b c = true) :
    strContains a c = true := by
  apply strContains_of_part
  exact (listContainsSub_to_part c.data b.data h₂).trans
    (listContainsSub_to_part b.data a.data h₁)

theorem hexDigit_mem (n : Nat) : hexDigit n ∈ hexDigits := by
  unfold hexDigit
  rcases Nat.lt_or_ge n hexDigits.length with h | h
  · rw [List.getD_eq_getElem _ _ h]
    exact List.getElem_mem h
  · rw [List.getD_eq_default _ _ h]
    decide

theorem hexDigit_ne_qmark (n : Nat) : hexDigit n ≠ '?' := by
  intro h
  have := hexDigit_mem n
  rw [h] at this
  simp [hexDigits] at this

theorem encodeChar_no_qmark (c : Char) : ∀ d ∈ encodeChar c, d ≠ '?' := by
  intro d hd
  unfold encodeChar at hd
  split at hd
  · rename_i hu
    simp only [List.mem_singleton] at hd
    subst hd
    intro h
    subst h
    simp [isUriUnreserved, Char.isAlphanum, Char.isAlpha, Char.isUpper, Char.isLower,
      Char.isDigit] at hu
  · generalize utf8Bytes c = bs at hd
    induction bs with
    | nil => simp at hd
    | cons b bs ih =>
      simp only [List.foldr_cons, List.mem_cons] at hd
      rcases hd with rfl | rfl | rfl | hd
      · decide
      · exact hexDigit_ne_qmark _
      · exact hexDigit_ne_qmark _
      · exact ih hd

theorem encodeURIComponentList_no_qmark (cs : List Char) :
    ∀ d ∈ encodeURIComponentList cs, d ≠ '?' := by
  induction cs with
  | nil => intro d hd; simp [encodeURIComponentList] at hd
  | cons c cs ih =>
    intro d hd
    simp only [encodeURIComponentList, List.mem_append] at hd
    rcases hd with hd | hd
    · exact encodeChar_no_qmark c d hd
    · exact ih d hd

theorem searchToString_contains_mem (l : List (String × String)) (p : String × String)
    (h : p ∈ l) : strContains (searchToString l) (pairToString p) = true := by
  induction l with
  | nil => simp at h
  | cons q qs ih =>
    rcases List.mem_cons.mp h with rfl | h
    · cases qs with
      | nil => simpa [searchToString] using strContains_append_left (pairToString p) ""
      | cons r rs =>
        show strContains (pairToString p ++ "&" ++ searchToString (r :: rs)) _ = true
        exact strContains_trans _ _ _
          (strContains_append_left (pairToString p ++ "&") (searchToString (r :: rs)))
          (strContains_append_left (pairToString p) "&")
    · cases qs with
      | nil => simp at h
      | cons r rs =>
        show strContains (pairToString q ++ "&" ++ searchToString (r :: rs)) _ = true
        exact strContains_trans _ _ _
          (strContains_append_right (pairToString q ++ "&") (searchToString (r :: rs)))
          (ih h)


theorem strContains_extend_right (a b n : String)
    (h : strContains a n = true) : strContains (a ++ b) n = true := by
  apply strContains_of_part
  rw [String.data_append]
  exact (listContainsSub_to_part n.data a.data h).trans ⟨[], b.data, rfl⟩

theorem strContains_extend_left (a b n : String)
    (h : strContains b n = true) : strContains (a ++ b) n = true := by
  apply strContains_of_part
  rw [String.data_append]
  rcases listContainsSub_to_part n.data b.data h with ⟨s, t, hst⟩
  exact ⟨a.data ++ s, t, by simp [← hst]⟩

theorem hasKey_append (l₁ l₂ : List (String × String)) (k : String) :
    hasKey (l₁ ++ l₂) k = (hasKey l₁ k || hasKey l₂ k) := by
  induction l₁ with
  | nil => simp [hasKey]
  | cons p ps ih => simp [hasKey, ih, Bool.or_assoc]

theorem jsGet_append (l₁ l₂ : List (String × String)) (k : String) :
    jsGet (l₁ ++ l₂) k = match jsGet l₁ k with
      | some v => some v
      | none => jsGet l₂ k := by
  induction l₁ with
  | nil => simp [jsGet]
  | cons p ps ih =>
    by_cases hp : p.1 = k
    · simp [jsGet, hp]
    · simp [jsGet, hp, ih]

theorem hasKey_strField (key k : String) (v : Option String) :
    hasKey (strField key v) k = if key = k then optStrTruthy v else false := by
  cases v with
  | none => simp [strField, hasKey, optStrTruthy]
  | some s =>
    by_cases hs : s = "" <;> by_cases hk : key = k <;>
      simp [strField, hasKey, optStrTruthy, hs, hk]

theorem hasKey_numField (key k : String) (v : Option Int) :
    hasKey (numField key v) k = if key = k then v.isSome else false := by
  cases v with
  | none => simp [numField, hasKey]
  | some n => by_cases hk : key = k <;> simp [numField, hasKey, hk]

theorem jsGet_strField (key k : String) (v : Option String) :
    jsGet (strField key v) k = if key = k then strFieldVal v else none := by
  cases v with
  | none => simp [strField, jsGet, strFieldVal]
  | some s =>
    by_cases hs : s = "" <;> by_cases hk : key = k <;>
      simp [strField, jsGet, strFieldVal, hs, hk]

theorem jsGet_numField (key k : String) (v : Option Int) :
    jsGet (numField key v) k = if key = k then v.map (fun n => toString n) else none := by
  cases v with
  | none => simp [numField, jsGet]
  | some n => by_cases hk : key = k <;> simp [numField, jsGet, hk]

theorem hasKey_false_of_jsGet_none (l : List (String × String)) (k : String)
    (h : jsGet l k = none) : hasKey l k = false := by
  induction l with
  | nil => rfl
  | cons p ps ih =>
    by_cases hp : p.1 = k
    · simp [jsGet, hp] at h
    · simp [jsGet, hp] at h
      simp [hasKey, hp, ih h]

theorem countKey_map_rewriteKey (o : List (String × String)) (k k' v : String) :
    countKey (o.map (fun p => if p.1 = k' then (k', v) else p)) k = countKey o k := by
  induction o with
  | nil => rfl
  | cons p ps ih =>
    by_cases hp : p.1 = k' <;> simp [countKey, hp, ih]

theorem countKey_append (l₁ l₂ : List (String × String)) (k : String) :
    countKey (l₁ ++ l₂) k = countKey l₁ k + countKey l₂ k := by
  induction l₁ with
  | nil => simp [countKey]
  | cons p ps ih => simp [countKey, ih]; omega

theorem countKey_zero_of_hasKey_false (o : List (String × String)) (k : String)
    (h : hasKey o k = false) : countKey o k = 0 := by
  induction o with
  | nil => rfl
  | cons p ps ih =>
    simp only [hasKey, Bool.or_eq_false_iff, decide_eq_false_iff_not] at h
    simp [countKey, h.1, ih h.2]

theorem countKey_objInsert (o : List (String × String)) (k k' v : String)
    (h : countKey o k = 1) : countKey (objInsert o k' v) k = 1 := by
  unfold objInsert
  by_cases hk : hasKey o k' = true
  · simp [hk, countKey_map_rewriteKey, h]
  · simp only [Bool.not_eq_true] at hk
    rw [if_neg (by simp [hk]), countKey_append]
    by_cases hkk : k' = k
    · subst hkk
      rw [countKey_zero_of_hasKey_false o k' hk] at h
      simp at h
    · simp [countKey, hkk, h]

theorem countKey_objExtend (kvs : List (String × String)) (o : List (String × String))
    (k : String) (h : countKey o k = 1) : countKey (objExtend o kvs) k = 1 := by
  induction kvs generalizing o with
  | nil => simpa [objExtend] using h
  | cons p ps ih =>
    show countKey (objExtend (objInsert o p.1 p.2) ps) k = 1
    exact ih _ (countKey_objInsert o k p.1 p.2 h)

theorem jsGet_objInsert_self (o : List (String × String)) (k v : String) :
    jsGet (objInsert o k v) k = some v := by
  unfold objInsert
  by_cases hk : hasKey o k = true
  · simp only [hk, if_true]
    induction o with
    | nil => simp [hasKey] at hk
    | cons p ps ih =>
      by_cases hp : p.1 = k
      · simp [jsGet, hp]
      · simp only [hasKey, Bool.or_eq_true, decide_eq_true_eq] at hk
        rcases hk with hk | hk
        · exact absurd hk hp
        · simp [jsGet, hp, ih hk]
  · simp only [Bool.not_eq_true] at hk
    rw [if_neg (by simp [hk])]
    induction o with
    | nil => simp [jsGet]
    | cons p ps ih =>
      simp only [hasKey, Bool.or_eq_false_iff, decide_eq_false_iff_not] at hk
      simp [jsGet, hk.1, ih hk.2]

theorem jsGet_map_rewriteKey_ne (o : List (String × String)) (k k' v : String)
    (h : k' ≠ k) :
    jsGet (o.map (fun p => if p.1 = k' then (k', v) else p)) k = jsGet o k := by
  induction o with
  | nil => rfl
  | cons p ps ih =>
    by_cases hp : p.1 = k'
    · have hpk : p.1 ≠ k := by rw [hp]; exact h
      simp [jsGet, hp, hpk, h, ih]
    · simp only [List.map_cons, hp, if_false, jsGet, ih]

theorem jsGet_objInsert_ne (o : List (String × String)) (k k' v : String)
    (h : k' ≠ k) : jsGet (objInsert o k' v) k = jsGet o k := by
  unfold objInsert
  by_cases hk : hasKey o k' = true
  · simp only [hk, if_true]
    exact jsGet_map_rewriteKey_ne o k k' v h
  · simp only [Bool.not_eq_true] at hk
    rw [if_neg (by simp [hk]), jsGet_append]
    cases hg : jsGet o k with
    | some w => rfl
    | none => simp [jsGet, h]

theorem jsGet_objExtend_absent (kvs : List (String × String)) (o : List (String × String))
    (k : String) (h : hasKey kvs k = false) :
    jsGet (objExtend o kvs) k = jsGet o k := by
  induction kvs generalizing o with
  | nil => rfl
  | cons p ps ih =>
    simp only [hasKey, Bool.or_eq_false_iff, decide_eq_false_iff_not] at h
    show jsGet (objExtend (objInsert o p.1 p.2) ps) k = jsGet o k
    rw [ih _ h.2, jsGet_objInsert_ne o k p.1 p.2 h.1]

theorem hasKey_reverse (l : List (String × String)) (k : String) :
    hasKey l.reverse k = hasKey l k := by
  induction l with
  | nil => rfl
  | cons p ps ih =>
    rw [List.reverse_cons, hasKey_append, ih]
    simp [hasKey, Bool.or_comm]

theorem jsGet_objExtend_last (kvs : List (String × String)) (o : List (String × String))
    (k v : String) (h : jsGet kvs.reverse k = some v) :
    jsGet (objExtend o kvs) k = some v := by
  induction kvs generalizing o with
  | nil => simp [jsGet] at h
  | cons p ps ih =>
    rw [List.reverse_cons, jsGet_append] at h
    show jsGet (objExtend (objInsert o p.1 p.2) ps) k = some v
    cases hg : jsGet ps.reverse k with
    | some w =>
      rw [hg] at h
      exact ih _ (hg.trans (by simpa using h))
    | none =>
      rw [hg] at h
      simp only [jsGet] at h
      by_cases hp : p.1 = k
      · simp only [hp, if_true] at h
        have hps : hasKey ps k = false := by
          rw [← hasKey_reverse]
          exact hasKey_false_of_jsGet_none ps.reverse k hg
        rw [jsGet_objExtend_absent ps _ k hps, ← hp, jsGet_objInsert_self]
        exact h
      · simp [hp] at h

theorem head_dropWhile_not (p : Char → Bool) :
    ∀ (l : List Char) (c : Char), (l.dropWhile p).head? = some c → p c = false := by
  intro l
  induction l with
  | nil => intro c h; simp [List.dropWhile] at h
  | cons a as ih =>
    intro c h
    by_cases ha : p a = true
    · rw [List.dropWhile_cons, if_pos ha] at h
      exact ih c h
    · rw [List.dropWhile_cons, if_neg ha] at h
      simp only [List.head?_cons, Option.some_inj] at h
      subst h
      simpa using ha

theorem dropWhile_eq_self_of_head (p : Char → Bool) (l : List Char)
    (h : ∀ c, l.head? = some c → p c = false) : l.dropWhile p = l := by
  cases l with
  | nil => rfl
  | cons a as => simp [List.dropWhile_cons, h a rfl]

theorem stripGenieKeyList_cases (cs : List Char) :
    stripGenieKeyList cs = cs ∨
      ∃ rest : List Char, stripGenieKeyList cs = rest.dropWhile isJsSpace := by
  unfold stripGenieKeyList
  by_cases htake : cs.take 8 = "GenieKey".data
  · rw [if_pos htake]
    cases hdrop : cs.drop 8 with
    | nil => exact Or.inl rfl
    | cons c rest =>
      by_cases hsp : isJsSpace c = true
      · refine Or.inr ⟨rest, ?_⟩
        show (if isJsSpace c = true then List.dropWhile isJsSpace rest else cs) = _
        rw [if_pos hsp]
      · refine Or.inl ?_
        show (if isJsSpace c = true then List.dropWhile isJsSpace rest else cs) = cs
        rw [if_neg hsp]
  · rw [if_neg htake]
    exact Or.inl rfl

theorem stripGenieKeyList_head (cs : List Char)
    (h : ∀ c, cs.head? = some c → isJsSpace c = false) :
    ∀ c, (stripGenieKeyList cs).head? = some c → isJsSpace c = false := by
  rcases stripGenieKeyList_cases cs with hc | ⟨rest, hc⟩
  · rw [hc]; exact h
  · rw [hc]; exact fun c => head_dropWhile_not isJsSpace rest c

theorem stripGenieKeyList_genie_append (s : List Char)
    (h : ∀ c, s.head? = some c → isJsSpace c = false) :
    stripGenieKeyList ("GenieKey ".data ++ s) = s := by
  show List.dropWhile isJsSpace s = s
  exact dropWhile_eq_self_of_head isJsSpace s h

theorem canonicalAuth_idem (k : String)
    (h : ∀ c, k.data.head? = some c → isJsSpace c = false) :
    canonicalAuth (canonicalAuth k) = canonicalAuth k := by
  unfold canonicalAuth stripGenieKey
  congr 2
  rw [String.data_append]
  show stripGenieKeyList ("GenieKey ".data ++ stripGenieKeyList k.data) = stripGenieKeyList k.data
  exact stripGenieKeyList_genie_append _ (stripGenieKeyList_head k.data h)

theorem takeWhile_append_all (p : Char → Bool) (l₁ l₂ : List Char)
    (h : ∀ c ∈ l₁, p c = true) : (l₁ ++ l₂).takeWhile p = l₁ ++ l₂.takeWhile p := by
  induction l₁ with
  | nil => rfl
  | cons a as ih =>
    simp only [List.cons_append, List.takeWhile_cons, h a (List.mem_cons_self a as), if_true,
      List.cons.injEq, true_and]
    exact ih (fun c hc => h c (List.mem_cons_of_mem a hc))

theorem dropWhile_append_all (p : Char → Bool) (l₁ l₂ : List Char)
    (h : ∀ c ∈ l₁, p c = true) : (l₁ ++ l₂).dropWhile p = l₂.dropWhile p := by
  induction l₁ with
  | nil => rfl
  | cons a as ih =>
    simp only [List.cons_append, List.dropWhile_cons, h a (List.mem_cons_self a as), if_true]
    exact ih (fun c hc => h c (List.mem_cons_of_mem a hc))

theorem urlPath_split (pre post : List Char) (h : ∀ c ∈ pre, c ≠ '?') :
    urlPath (String.mk (pre ++ '?' :: post)) = String.mk pre := by
  unfold urlPath
  congr 1
  show (pre ++ '?' :: post).takeWhile (fun c => decide (c ≠ '?')) = pre
  rw [takeWhile_append_all _ _ _ (fun c hc => by simp [h c hc])]
  simp [List.takeWhile_cons]

theorem urlQuery_split (pre post : List Char) (h : ∀ c ∈ pre, c ≠ '?') :
    urlQuery (String.mk (pre ++ '?' :: post)) = String.mk post := by
  unfold urlQuery
  congr 1
  show ((pre ++ '?' :: post).dropWhile (fun c => decide (c ≠ '?'))).tail = post
  rw [dropWhile_append_all _ _ _ (fun c hc => by simp [h c hc])]
  simp [List.dropWhile_cons]

theorem encodeURIComponent_no_qmark (s : String) :
    ∀ c ∈ (encodeURIComponent s).data, c ≠ '?' := by
  intro c hc
  exact encodeURIComponentList_no_qmark s.data c hc

theorem match_opt_id (o : Option String) :
    (match o with | some v => some v | none => none) = o := by
  cases o <;> rfl

/-! ## Claim C1 -/

/-- C1, counterexample: the claim says an explicitly supplied empty
string yields the key with that value, but `searchAlerts` guards string
parameters by truthiness, so a defined-but-empty `query` produces no
`query` key at all (the whole query list is empty). -/
theorem C1_counterexample :
    ({ query := some "" } : AlertSearchParams).query ≠ none ∧
    hasKey (searchAlertsQuery { query := some "" }) "query" = false ∧
    searchAlertsQuery { query := some "" } = [] := by decide

/-- C1, amended: in `searchAlerts` and `countAlerts` a key appears in
the constructed query iff the corresponding field is defined and — for
the string-valued fields — non-empty (an explicitly supplied empty
string is omitted like an absent field); the numeric `offset`/`limit`
appear exactly when defined; a present key carries the caller's value
(`String(...)` of it for numeric fields). -/
theorem C1_query_keys_truthy_defined :
    ∀ (p : AlertSearchParams) (q : AlertCountParams),
      (hasKey (searchAlertsQuery p) "query" = optStrTruthy p.query ∧
       hasKey (searchAlertsQuery p) "searchIdentifier" = optStrTruthy p.searchIdentifier ∧
       hasKey (searchAlertsQuery p) "searchIdentifierType" =
         optStrTruthy p.searchIdentifierType ∧
       hasKey (searchAlertsQuery p) "offset" = p.offset.isSome ∧
       hasKey (searchAlertsQuery p) "limit" = p.limit.isSome ∧
       hasKey (searchAlertsQuery p) "sort" = optStrTruthy p.sort ∧
       hasKey (searchAlertsQuery p) "order" = optStrTruthy p.order) ∧
      (jsGet (searchAlertsQuery p) "query" = strFieldVal p.query ∧
       jsGet (searchAlertsQuery p) "searchIdentifier" = strFieldVal p.searchIdentifier ∧
       jsGet (searchAlertsQuery p) "searchIdentifierType" =
         strFieldVal p.searchIdentifierType ∧
       jsGet (searchAlertsQuery p) "offset" = p.offset.map (fun n => toString n) ∧
       jsGet (searchAlertsQuery p) "limit" = p.limit.map (fun n => toString n) ∧
       jsGet (searchAlertsQuery p) "sort" = strFieldVal p.sort ∧
       jsGet (searchAlertsQuery p) "order" = strFieldVal p.order) ∧
      (hasKey (countAlertsQuery q) "query" = optStrTruthy q.query ∧
       hasKey (countAlertsQuery q) "searchIdentifier" = optStrTruthy q.searchIdentifier ∧
       hasKey (countAlertsQuery q) "searchIdentifierType" =
         optStrTruthy q.searchIdentifierType) := by
  intro p q
  refine ⟨⟨?_, ?_, ?_, ?_, ?_, ?_, ?_⟩, ⟨?_, ?_, ?_, ?_, ?_, ?_, ?_⟩, ?_, ?_, ?_⟩ <;>
    simp [searchAlertsQuery, countAlertsQuery, hasKey_append, jsGet_append,
      hasKey_strField, hasKey_numField, jsGet_strField, jsGet_numField, match_opt_id]

/-! ## Claim C3 -/

/-- C3: every non-success response makes the adapter read the full body
text and throw exactly one error, whose message embeds the numeric
status, the status text and the raw body text verbatim; this is the
only error raised for non-success statuses. -/
theorem C3_nonsuccess_single_error :
    ∀ r : Response, respOk r = false →
      handleResponse r = Except.error (opsgenieErrorMsg r) ∧
      strContains (opsgenieErrorMsg r) (toString r.status) = true ∧
      strContains (opsgenieErrorMsg r) r.statusText = true ∧
      strContains (opsgenieErrorMsg r) r.bodyText = true ∧
      (∀ e, handleResponse r = Except.error e → e = opsgenieErrorMsg r) := by
  intro r h
  refine ⟨by simp [handleResponse, h], ?_, ?_, ?_, ?_⟩
  · unfold opsgenieErrorMsg
    exact strContains_extend_right _ _ _ (strContains_extend_right _ _ _
      (strContains_extend_right _ _ _ (strContains_extend_right _ _ _
        (strContains_append_right _ _))))
  · unfold opsgenieErrorMsg
    exact strContains_extend_right _ _ _ (strContains_extend_right _ _ _
      (strContains_append_right _ _))
  · unfold opsgenieErrorMsg
    exact strContains_append_right _ _
  · intro e he
    rw [handleResponse, if_neg (by simp [h])] at he
    exact (Except.error.inj he).symm

/-- C3, witness at a concrete 404. -/
theorem C3_witness :
    respOk ⟨404, "Not Found", "not found"⟩ = false ∧
    handleResponse ⟨404, "Not Found", "not found"⟩ =
      Except.error "OpsGenie API error: 404 Not Found - not found" ∧
    strContains "OpsGenie API error: 404 Not Found - not found" "not found" = true := by
  have h := C3_nonsuccess_single_error ⟨404, "Not Found", "not found"⟩ (by decide)
  refine ⟨by decide, ?_, by decide⟩
  rw [h.1]
  exact congrArg Except.error (by decide)

/-! ## Claim C4 -/

/-- C4, counterexample: the claim says absence is distinct from an
explicitly supplied empty string, but `closeAlert` guards the note by
truthiness, so an explicit empty-string note produces exactly the same
request as no note. -/
theorem C4_counterexample :
    closeAlert "A1" (some "") = closeAlert "A1" none ∧ (some "" : Option String) ≠ none := by
  constructor
  · have h : noteBodyJson (some "") = noteBodyJson none := rfl
    unfold closeAlert
    rw [h]
  · decide

/-- C4, amended: close/acknowledge/unacknowledge include the `note`
body member exactly when the caller supplied a non-empty note (an
explicit empty string behaves like absence); `closeAlert("A1")`
produces body `\x7b\x7d` and `closeAlert("A1","done")` produces body
`\x7b"note":"done"\x7d`. -/
theorem C4_note_included_iff_truthy :
    ∀ (identifier : String) (note : Option String),
      (closeAlert identifier note).options.body =
        some (JsBody.str (Json.stringify (noteBodyJson note))) ∧
      (acknowledgeAlert identifier note).options.body =
        some (JsBody.str (Json.stringify (noteBodyJson note))) ∧
      (unacknowledgeAlert identifier note).options.body =
        some (JsBody.str (Json.stringify (noteBodyJson note))) ∧
      (optStrTruthy note = false → noteBodyJson note = Json.obj []) ∧
      (∀ s, note = some s → s ≠ "" →
        noteBodyJson note = Json.obj [("note", Json.str s)]) ∧
      Json.stringify (noteBodyJson none) = "\x7b\x7d" ∧
      Json.stringify (noteBodyJson (some "done")) = "\x7b\"note\":\"done\"\x7d" := by
  intro identifier note
  refine ⟨rfl, rfl, rfl, ?_, ?_, by decide, by decide⟩
  · intro h
    cases note with
    | none => rfl
    | some s =>
      simp only [optStrTruthy, decide_eq_false_iff_not, not_not] at h
      simp [noteBodyJson, h]
  · rintro s rfl hs
    simp [noteBodyJson, hs]

/-- C4, witness at the spec's concrete examples. -/
theorem C4_witness :
    (closeAlert "A1" (some "done")).options.body =
      some (JsBody.str "\x7b\"note\":\"done\"\x7d") ∧
    (closeAlert "A1" none).options.body = some (JsBody.str "\x7b\x7d") := by
  have h₁ := C4_note_included_iff_truthy "A1" (some "done")
  have h₂ := C4_note_included_iff_truthy "A1" none
  constructor
  · rw [h₁.1, h₁.2.2.2.2.2.2]
  · rw [h₂.1, h₂.2.2.2.2.2.1]

/-! ## Claim C5 -/

/-- C5, counterexample: call-specific headers are spread after the
adapter defaults, so a caller-supplied `Authorization` entry does
override the computed value; and the key derivation is not idempotent
for a raw key with leading whitespace (the greedy `\s+` strips the
extra space on the second pass). -/
theorem C5_counterexample :
    jsGet (buildFetch (mkOpsGenieClient ⟨"K", none⟩)
        ⟨"/x", { headers := [("Authorization", "Evil")] }⟩).headers "Authorization" =
      some "Evil" ∧
    canonicalAuth "K" = "GenieKey K" ∧ ("Evil" : String) ≠ "GenieKey K" ∧
    canonicalAuth (canonicalAuth " X") ≠ canonicalAuth " X" := by decide

/-- C5, amended: every built request has exactly one `Authorization`
header; when the call-specific headers do not themselves set
`Authorization` its value is the canonical `GenieKey `-prefixed form of
the configured key (existing prefix stripped), and that derivation is
idempotent for keys without leading whitespace; call-specific header
overrides take precedence over the adapter defaults — including, when
supplied, the `Authorization` value (last write wins). -/
theorem C5_single_auth_header :
    ∀ (cfg : OpsGenieClientConfig) (op : RequestOp) (k v : String),
      countKey (buildFetch (mkOpsGenieClient cfg) op).headers "Authorization" = 1 ∧
      (hasKey op.options.headers "Authorization" = false →
        jsGet (buildFetch (mkOpsGenieClient cfg) op).headers "Authorization" =
          some (canonicalAuth cfg.apiKey)) ∧
      ((∀ c, cfg.apiKey.data.head? = some c → isJsSpace c = false) →
        canonicalAuth (canonicalAuth cfg.apiKey) = canonicalAuth cfg.apiKey) ∧
      (jsGet op.options.headers.reverse k = some v →
        jsGet (buildFetch (mkOpsGenieClient cfg) op).headers k = some v) := by
  intro cfg op k v
  refine ⟨?_, ?_, canonicalAuth_idem cfg.apiKey, ?_⟩
  · exact countKey_objExtend op.options.headers _ "Authorization" (by simp [countKey])
  · intro h
    show jsGet (objExtend _ op.options.headers) "Authorization" = _
    rw [jsGet_objExtend_absent _ _ _ h]
    simp [jsGet, canonicalAuth, mkOpsGenieClient, stripGenieKey]
  · intro h
    exact jsGet_objExtend_last _ _ _ _ h

/-- C5, witness at a concrete configuration with one custom header. -/
theorem C5_witness :
    countKey (buildFetch (mkOpsGenieClient ⟨"GenieKey SECRET", none⟩)
      ⟨"/v2/alerts", { headers := [("X-Trace", "t1")] }⟩).headers "Authorization" = 1 ∧
    jsGet (buildFetch (mkOpsGenieClient ⟨"GenieKey SECRET", none⟩)
      ⟨"/v2/alerts", { headers := [("X-Trace", "t1")] }⟩).headers "Authorization" =
        some "GenieKey SECRET" ∧
    canonicalAuth (canonicalAuth "GenieKey SECRET") = canonicalAuth "GenieKey SECRET" ∧
    jsGet (buildFetch (mkOpsGenieClient ⟨"GenieKey SECRET", none⟩)
      ⟨"/v2/alerts", { headers := [("X-Trace", "t1")] }⟩).headers "X-Trace" = some "t1" := by
  have h := C5_single_auth_header ⟨"GenieKey SECRET", none⟩
    ⟨"/v2/alerts", { headers := [("X-Trace", "t1")] }⟩ "X-Trace" "t1"
  have hhead : ∀ c, ("GenieKey SECRET" : String).data.head? = some c → isJsSpace c = false := by
    intro c hc
    injection (show some 'G' = some c from hc) with hgc
    rw [← hgc]
    decide
  refine ⟨h.1, ?_, h.2.2.1 hhead, h.2.2.2 (by decide)⟩
  rw [h.2.1 (by decide)]
  exact congrArg some (by decide)

/-! ## Claim C6 -/

/-- C6: every alert-identifying client operation issues a request whose
URL contains the query parameter `identifierType=id`. -/
theorem C6_identifierType_always_pinned :
    ∀ (c : OpsGenieClient) (i : String) (note : Option String) (p : AlertNotesParams)
      (j : Json) (tags : List String) (n : String),
      strContains (buildFetch c (getAlert i)).url "identifierType=id" = true ∧
      strContains (buildFetch c (getAlertNotes i p)).url "identifierType=id" = true ∧
      strContains (buildFetch c (closeAlert i note)).url "identifierType=id" = true ∧
      strContains (buildFetch c (acknowledgeAlert i note)).url "identifierType=id" = true ∧
      strContains (buildFetch c (unacknowledgeAlert i note)).url "identifierType=id" = true ∧
      strContains (buildFetch c (snoozeAlert i j)).url "identifierType=id" = true ∧
      strContains (buildFetch c (assignAlert i j)).url "identifierType=id" = true ∧
      strContains (buildFetch c (escalateAlert i j)).url "identifierType=id" = true ∧
      strContains (buildFetch c (addNoteToAlert i n)).url "identifierType=id" = true ∧
      strContains (buildFetch c (addTagsToAlert i tags note)).url "identifierType=id" = true ∧
      strContains (buildFetch c (removeTagsFromAlert i tags note)).url "identifierType=id" =
        true := by
  intro c i note p j tags n
  have hnotes : strContains (buildFetch c (getAlertNotes i p)).url "identifierType=id" = true := by
    have hmem : ("identifierType", "id") ∈ getAlertNotesQuery p := by
      simp [getAlertNotesQuery]
    have hq := searchToString_contains_mem _ _ hmem
    rw [show pairToString ("identifierType", "id") = "identifierType=id" from by decide] at hq
    exact strContains_extend_left _ _ _ (strContains_extend_left _ _ _ hq)
  refine ⟨?_, hnotes, ?_, ?_, ?_, ?_, ?_, ?_, ?_, ?_, ?_⟩ <;>
    exact strContains_extend_left _ _ _ (strContains_extend_left _ _ _ (by decide))

/-- C6, witness at a concrete identifier. -/
theorem C6_witness :
    strContains (buildFetch (mkOpsGenieClient ⟨"K", none⟩) (getAlert "A1")).url
      "identifierType=id" = true ∧
    strContains (buildFetch (mkOpsGenieClient ⟨"K", none⟩)
      (getAlertNotes "A1" {})).url "identifierType=id" = true := by
  have h := C6_identifierType_always_pinned (mkOpsGenieClient ⟨"K", none⟩) "A1" none {}
    Json.null [] "note"
  exact ⟨h.1, h.2.1⟩

/-! ## Claim C7 -/

/-- C7: `getAlert i` issues exactly one request, a GET, whose path
contains the percent-encoded form of `i` and whose query is the
literal `identifierType=id` (for any base URL without `?`). -/
theorem C7_getAlert_single_get :
    ∀ (c : OpsGenieClient) (i : String), (∀ ch ∈ c.baseUrl.data, ch ≠ '?') →
      issuedCalls c (getAlert i) = [buildFetch c (getAlert i)] ∧
      (issuedCalls c (getAlert i)).length = 1 ∧
      (buildFetch c (getAlert i)).method = "GET" ∧
      urlQuery (buildFetch c (getAlert i)).url = "identifierType=id" ∧
      strContains (urlPath (buildFetch c (getAlert i)).url) (encodeURIComponent i) = true := by
  intro c i h
  have hq : ("?identifierType=id" : String).data = '?' :: "identifierType=id".data := rfl
  have hurl : (buildFetch c (getAlert i)).url =
      String.mk ((c.baseUrl.data ++ "/v2/alerts/".data ++ (encodeURIComponent i).data) ++
        '?' :: "identifierType=id".data) := by
    apply String.ext
    show (c.baseUrl ++ ("/v2/alerts/" ++ encodeURIComponent i ++ "?identifierType=id")).data = _
    simp [String.data_append, hq, List.append_assoc]
  have hpre : ∀ ch ∈ c.baseUrl.data ++ "/v2/alerts/".data ++ (encodeURIComponent i).data,
      ch ≠ '?' := by
    intro ch hch
    rcases List.mem_append.mp hch with hch | hch
    · rcases List.mem_append.mp hch with hch | hch
      · exact h ch hch
      · exact (by decide : ∀ d ∈ ("/v2/alerts/" : String).data, d ≠ '?') ch hch
    · exact encodeURIComponent_no_qmark i ch hch
  refine ⟨rfl, rfl, rfl, ?_, ?_⟩
  · rw [hurl, urlQuery_split _ _ hpre]
  · rw [hurl, urlPath_split _ _ hpre]
    apply strContains_of_part
    exact ⟨c.baseUrl.data ++ "/v2/alerts/".data, [], by simp [List.append_assoc]⟩

/-- C7, witness at the default base URL and identifier `A1`. -/
theorem C7_witness :
    urlQuery (buildFetch (mkOpsGenieClient ⟨"K", none⟩) (getAlert "A1")).url =
      "identifierType=id" ∧
    strContains (urlPath (buildFetch (mkOpsGenieClient ⟨"K", none⟩) (getAlert "A1")).url)
      (encodeURIComponent "A1") = true ∧
    (buildFetch (mkOpsGenieClient ⟨"K", none⟩) (getAlert "A1")).method = "GET" := by
  have h := C7_getAlert_single_get (mkOpsGenieClient ⟨"K", none⟩) "A1" (by decide)
  exact ⟨h.2.2.2.1, h.2.2.2.2, h.2.2.1⟩

/-! ## Claim C9 -/

/-- C9: a body reaches the wire only when the caller supplied a string
body; a (necessarily truthy) non-string body object is stripped from
the outgoing request, never coerced. -/
theorem C9_body_only_string :
    ∀ (c : OpsGenieClient) (op : RequestOp),
      (∀ x, op.options.body = some (JsBody.nonString x) → (buildFetch c op).body = none) ∧
      (∀ s, op.options.body = some (JsBody.str s) →
        (buildFetch c op).body = some (JsBody.str s)) ∧
      (op.options.body = none → (buildFetch c op).body = none) ∧
      (∀ b, (buildFetch c op).body = some b →
        ∃ s, b = JsBody.str s ∧ op.options.body = some (JsBody.str s)) := by
  intro c op
  refine ⟨?_, ?_, ?_, ?_⟩
  · intro x hx
    simp [buildFetch, stripNonStringBody, hx]
  · intro s hs
    simp [buildFetch, stripNonStringBody, hs]
  · intro h
    simp [buildFetch, stripNonStringBody, h]
  · intro b hb
    simp only [buildFetch, stripNonStringBody] at hb
    cases hob : op.options.body with
    | none => rw [hob] at hb; simp at hb
    | some x =>
      cases x with
      | str s =>
        rw [hob] at hb
        simp only [Option.some_inj] at hb
        exact ⟨s, hb.symm, rfl⟩
      | nonString y => rw [hob] at hb; simp at hb

/-- C9, witness: a non-string body is stripped, a string body is kept. -/
theorem C9_witness :
    (buildFetch (mkOpsGenieClient ⟨"K", none⟩)
      ⟨"/v2/alerts", { body := some (JsBody.nonString "stream") }⟩).body = none ∧
    (buildFetch (mkOpsGenieClient ⟨"K", none⟩)
      ⟨"/v2/alerts", { body := some (JsBody.str "\x7b\x7d") }⟩).body =
      some (JsBody.str "\x7b\x7d") := by
  refine ⟨?_, ?_⟩
  · exact (C9_body_only_string (mkOpsGenieClient ⟨"K", none⟩)
      ⟨"/v2/alerts", { body := some (JsBody.nonString "stream") }⟩).1 "stream" rfl
  · exact (C9_body_only_string (mkOpsGenieClient ⟨"K", none⟩)
      ⟨"/v2/alerts", { body := some (JsBody.str "\x7b\x7d") }⟩).2.1 "\x7b\x7d" rfl

/-! ## Claim C2 -/

/-- C2: when the remote call inside the `get-alert-details` tool
handler throws an `Error`, the handler returns a response flagged as an
error with a single text block preserving the message verbatim; the
`alert-details` resource handler instead raises (its result is an
error, not a flagged content response). -/
theorem C2_tool_flags_resource_raises :
    ∀ (remote : String → Except JsValue GetAlertResponse) (identifier m uriHref : String),
      remote identifier = Except.error (JsValue.errorVal m) →
      ((getAlertDetailsTool remote identifier).isError = true ∧
       (getAlertDetailsTool remote identifier).content =
         [{ type := "text", text := some ("Error fetching alert details: " ++ m) }] ∧
       strContains ("Error fetching alert details: " ++ m) m = true ∧
       (identifier ≠ "" →
         alertDetailsResource remote uriHref (UriParam.one identifier) =
           Except.error ("Failed to fetch alert details: " ++ m))) := by
  intro remote identifier m uriHref h
  refine ⟨?_, ?_, strContains_append_right _ _, ?_⟩
  · simp [getAlertDetailsTool, h]
  · simp [getAlertDetailsTool, h, caughtMessage]
  · intro hne
    simp [alertDetailsResource, firstParam, hne, h, caughtMessage]

/-- C2, witness: a simulated 404 with body `not found` yields a flagged
single-text-block tool response containing `404` and `not found`, while
the resource handler raises. -/
theorem C2_witness :
    (getAlertDetailsTool remote404 "A1").isError = true ∧
    (getAlertDetailsTool remote404 "A1").content =
      [{ type := "text",
         text := some
           "Error fetching alert details: OpsGenie API error: 404 Not Found - not found" }] ∧
    strContains "Error fetching alert details: OpsGenie API error: 404 Not Found - not found"
      "404" = true ∧
    strContains "Error fetching alert details: OpsGenie API error: 404 Not Found - not found"
      "not found" = true ∧
    alertDetailsResource remote404 "opsgenie://alerts/A1" (UriParam.one "A1") =
      Except.error
        "Failed to fetch alert details: OpsGenie API error: 404 Not Found - not found" := by
  have h := C2_tool_flags_resource_raises remote404 "A1"
    "OpsGenie API error: 404 Not Found - not found" "opsgenie://alerts/A1" rfl
  refine ⟨h.1, ?_, by decide, by decide, ?_⟩
  · rw [h.2.1]
    decide
  · rw [h.2.2.2 (by decide)]
    exact congrArg Except.error (by decide)

/-! ## Claim C8 -/

/-- C8: invoking `get-alert-details` with identifier `A1` against a
stub remote returning a fixed alert document yields a text block
containing the alert's message together with a resource link whose URI
the `alert-details` template resolves back to the same identifier. -/
theorem C8_round_trip :
    ∀ (remote : String → Except JsValue GetAlertResponse) (resp : GetAlertResponse)
      (m : String),
      remote "A1" = Except.ok resp → resp.data.id = "A1" →
      resp.data.message = some m → m ≠ "" →
      ((getAlertDetailsTool remote "A1").isError = false ∧
       (getAlertDetailsTool remote "A1").content =
         [{ type := "text", text := some (formatAlertDetails resp.data) },
          { type := "resource_link",
            uri := some ("opsgenie://alerts/" ++ resp.data.id),
            name := some ("Alert " ++ resp.data.id),
            description := some ("Detailed JSON data for alert " ++ resp.data.id),
            mimeType := some "application/json" }] ∧
       strContains (formatAlertDetails resp.data) m = true ∧
       matchAlertDetails ("opsgenie://alerts/" ++ resp.data.id) = some "A1") := by
  intro remote resp m h hid hm hne
  refine ⟨?_, ?_, ?_, ?_⟩
  · simp [getAlertDetailsTool, h]
  · simp [getAlertDetailsTool, h]
  · have hj : jsOrNA resp.data.message = m := by simp [jsOrNA, hm, hne]
    unfold formatAlertDetails
    rw [hj]
    simp only [String.append_assoc]
    apply strContains_extend_left
    apply strContains_extend_left
    apply strContains_extend_left
    exact strContains_append_left _ _
  · rw [hid]
    show matchAlertDetails "opsgenie://alerts/A1" = some "A1"
    decide

/-- C8, witness at the fixed stub document. -/
theorem C8_witness :
    (getAlertDetailsTool remoteStubA1 "A1").isError = false ∧
    strContains (formatAlertDetails respA1.data) "Database down" = true ∧
    matchAlertDetails ("opsgenie://alerts/" ++ respA1.data.id) = some "A1" := by
  have h := C8_round_trip remoteStubA1 respA1 "Database down" rfl rfl rfl (by decide)
  exact ⟨h.1, h.2.2.1, h.2.2.2⟩

/-! ## Claim C10 -/

/-- C10: a tool handler that catches a non-`Error` value returns a
flagged response whose text ends with the fixed `Unknown error` and
carries nothing from the thrown value (the response is one constant);
only a caught `Error` instance has its message surfaced. -/
theorem C10_nonError_unknown :
    ∀ (remoteG : String → Except JsValue GetAlertResponse)
      (remoteC : String → Option String → Except JsValue Json)
      (identifier : String) (note : Option String) (x y m : String),
      (remoteG identifier = Except.error (JsValue.nonError x) →
        getAlertDetailsTool remoteG identifier =
          ⟨[{ type := "text", text := some "Error fetching alert details: Unknown error" }],
            true⟩) ∧
      (remoteC identifier note = Except.error (JsValue.nonError y) →
        closeAlertTool remoteC identifier note =
          ⟨[{ type := "text", text := some "Error closing alert: Unknown error" }], true⟩) ∧
      strEndsWith "Error fetching alert details: Unknown error" "Unknown error" = true ∧
      strEndsWith "Error closing alert: Unknown error" "Unknown error" = true ∧
      (remoteG identifier = Except.error (JsValue.errorVal m) →
        getAlertDetailsTool remoteG identifier =
          ⟨[{ type := "text", text := some ("Error fetching alert details: " ++ m) }],
            true⟩) := by
  intro remoteG remoteC identifier note x y m
  refine ⟨?_, ?_, by decide, by decide, ?_⟩
  · intro h
    simp only [getAlertDetailsTool, h]
    rfl
  · intro h
    simp only [closeAlertTool, h]
    rfl
  · intro h
    simp only [getAlertDetailsTool, h]
    rfl

/-- C10, witness: the flagged text is the fixed `Unknown error` one for
two different non-`Error` thrown values. -/
theorem C10_witness :
    getAlertDetailsTool remoteThrowRaw "A1" =
      ⟨[{ type := "text", text := some "Error fetching alert details: Unknown error" }],
        true⟩ ∧
    closeAlertTool remoteCloseThrowRaw "A1" none =
      ⟨[{ type := "text", text := some "Error closing alert: Unknown error" }], true⟩ := by
  have h := C10_nonError_unknown remoteThrowRaw remoteCloseThrowRaw "A1" none
    "raw payload" "other raw payload" ""
  exact ⟨h.1 rfl, h.2.1 rfl⟩

end Opsgenie
